import Mathlib

/-!
Verification of the token-balance asset-transfer sample.

Part 1 embeds the chaincode (`assetTransfer.ts`, class `AssetTransferContract`):
the Fabric world state is modelled as an association list of `(key, value)`
pairs kept in ascending key order (Fabric's range queries return keys in
lexicographic order, so key order is the store's representation invariant),
and every transaction method is a function from a transaction context
(`TxEffects`: current state plus the traces of `putState`, `deleteState`,
`setEvent` and `setStateValidationParameter` calls made so far) to either a
`ContractError` or the updated context.  Numeric payloads are stored by the
chaincode as decimal strings of JavaScript numbers; the embedding keeps the
numeric value itself as an `Int`.

Part 2 embeds the gateway application client (`AssetTransfer` class and
`submitWithRetry`): a submission is abstracted as a stream of attempt
outcomes `ℕ → Except GatewayError T` (the outcome the ledger would give the
k-th execution of the submit call), and each client method is the pipeline
the source wraps around that stream.
-/

/-- Ledger keys are client identifiers (strings). -/
abbrev Key := String

/-- The world state: `(key, value)` pairs in ascending key order.
The numeric payload stored by the chaincode is modelled directly as `Int`. -/
abbrev WorldState := List (Key × Int)

/-- Embeds `ctx.stub.getState(id)`: the value stored under a key, if any. -/
def getState : WorldState → Key → Option Int
  | [], _ => none
  | (k', v') :: rest, k => if k' = k then some v' else getState rest k

/-- Embeds `ctx.stub.putState(id, value)`: set the value of a key, inserting it at
its sorted position when absent. -/
def putState : WorldState → Key → Int → WorldState
  | [], k, v => [(k, v)]
  | (k', v') :: rest, k, v =>
    if k = k' then (k, v) :: rest
    else if k < k' then (k, v) :: (k', v') :: rest
    else (k', v') :: putState rest k v

/-- Embeds `ctx.stub.deleteState(id)`: remove a key from the world state. -/
def deleteState : WorldState → Key → WorldState
  | [], _ => []
  | (k', v') :: rest, k =>
    if k' = k then deleteState rest k else (k', v') :: deleteState rest k

/-- Embeds `ctx.stub.getStateByRange('', '')`: all records, in key order (the
representation already stores them in key order). -/
def getStateByRange (w : WorldState) : List (Key × Int) := w

/-- The transaction context: the current world state plus the traces of the
stub calls the transaction has performed so far.  `events` records the
`setEvent` calls `(name, payload)` in order; `endorsements` records the
`setStateValidationParameter` calls made through `setEndorsingOrgs` as
`(key, mspId)` pairs. -/
structure TxEffects where
  state : WorldState
  writes : List (Key × Int)
  deletes : List Key
  events : List (String × String)
  endorsements : List (Key × String)
deriving DecidableEq, Repr

/-- A fresh transaction context over a given world state. -/
def initFx (w : WorldState) : TxEffects :=
  { state := w, writes := [], deletes := [], events := [], endorsements := [] }

def stubPutState (fx : TxEffects) (k : Key) (v : Int) : TxEffects :=
  { fx with state := putState fx.state k v, writes := fx.writes ++ [(k, v)] }

def stubDeleteState (fx : TxEffects) (k : Key) : TxEffects :=
  { fx with state := deleteState fx.state k, deletes := fx.deletes ++ [k] }

def setEvent (fx : TxEffects) (name payload : String) : TxEffects :=
  { fx with events := fx.events ++ [(name, payload)] }

/-- Embeds `setEndorsingOrgs(ctx, ledgerKey, ctx.clientIdentity.getMSPID())`:
attach the key-level endorsement policy for the given organization (the
source builds a `MEMBER` policy for the orgs and calls
`setStateValidationParameter`; the embedding records the attachment). -/
def setEndorsingOrgs (fx : TxEffects) (ledgerKey : Key) (msp : String) : TxEffects :=
  { fx with endorsements := fx.endorsements ++ [(ledgerKey, msp)] }

/-- Errors thrown by the contract methods. -/
inductive ContractError where
  | alreadyExists (id : Key)
  | notFound (id : Key)
  | insufficientTokens (id : Key)
deriving DecidableEq, Repr

/-- Computes `Math.ceil(n / d)` for an integer `n` and positive integer `d`
(`Int.ediv` is floor division for a positive divisor). -/
def ceilDiv (n d : Int) : Int := -((-n) / d)

/-- Embeds `evaluateObfuscation(data) = Math.ceil(data.length / 10)`. -/
def evaluateObfuscation (data : String) : Int := ceilDiv (data.length : Int) 10

/-- Embeds `evaluateDeduction(requiredLength) = Math.ceil(requiredLength / 10)`. -/
def evaluateDeduction (requiredLength : Int) : Int := ceilDiv requiredLength 10

/-- Embeds `ClientExists(ctx, id)`: true when a value is stored under the key. -/
def ClientExists (w : WorldState) (id : Key) : Bool := (getState w id).isSome

/-- Embeds `GetTokens(ctx, id)`: the stored amount, or an error when absent. -/
def GetTokens (w : WorldState) (id : Key) : Except ContractError Int :=
  match getState w id with
  | none => .error (.notFound id)
  | some v => .ok v

/-- Embeds `AddClient(ctx, id, initAmount)`.  `msp` is `ctx.clientIdentity.getMSPID()`. -/
def AddClient (msp : String) (fx : TxEffects) (id : Key) (initAmount : Int) :
    Except ContractError TxEffects :=
  if ClientExists fx.state id then .error (.alreadyExists id)
  else
    let fx1 := stubPutState fx id initAmount
    let fx2 := setEndorsingOrgs fx1 id msp
    .ok (setEvent fx2 "AddClient" (toString initAmount))

/-- Embeds `PutTokens(ctx, id, newAmount)`. -/
def PutTokens (msp : String) (fx : TxEffects) (id : Key) (newAmount : Int) :
    Except ContractError TxEffects :=
  if ClientExists fx.state id then
    let fx1 := stubPutState fx id newAmount
    let fx2 := setEndorsingOrgs fx1 id msp
    .ok (setEvent fx2 "PutTokens" (toString newAmount))
  else .error (.notFound id)

/-- Embeds `DeleteClient(ctx, id)`. -/
def DeleteClient (fx : TxEffects) (id : Key) : Except ContractError TxEffects :=
  match getState fx.state id with
  | none => .error (.notFound id)
  | some v =>
    let fx1 := stubDeleteState fx id
    .ok (setEvent fx1 "DeleteClient" (toString v))

/-- Embeds `ContributeResource(ctx, id, data)`. -/
def ContributeResource (msp : String) (fx : TxEffects) (id : Key) (data : String) :
    Except ContractError TxEffects :=
  if ClientExists fx.state id then
    match GetTokens fx.state id with
    | .error e => .error e
    | .ok currentTokens =>
      let newAmount := currentTokens + evaluateObfuscation data
      match PutTokens msp fx id newAmount with
      | .error e => .error e
      | .ok fx1 => .ok (setEvent fx1 "ContributeResource" (toString newAmount))
  else .error (.notFound id)

/-- Embeds `ConsumeResource(ctx, id, requiredLength)`. -/
def ConsumeResource (msp : String) (fx : TxEffects) (id : Key) (requiredLength : Int) :
    Except ContractError TxEffects :=
  if ClientExists fx.state id then
    match GetTokens fx.state id with
    | .error e => .error e
    | .ok currentTokens =>
      let newAmount := currentTokens - evaluateDeduction requiredLength
      if newAmount < 0 then .error (.insufficientTokens id)
      else
        match PutTokens msp fx id newAmount with
        | .error e => .error e
        | .ok fx1 => .ok (setEvent fx1 "ConsumeResource" (toString newAmount))
  else .error (.notFound id)

/-- Embeds `GetAllTokens(ctx)`: the `(id, tokens)` pair of every record returned by
the open range query, in order.  (The source then serializes this list to a
JSON string; the serialization is outside the modelled core.)  The function
is total: it never fails. -/
def GetAllTokens (w : WorldState) : List (Key × Int) :=
  (getStateByRange w).map (fun r => (r.1, r.2))

/-- One committed transaction of the contract: the relation between the world
state a successful transaction starts from and the state it commits.  A
failed (thrown) transaction commits nothing and produces no step. -/
inductive Step : WorldState → WorldState → Prop where
  | addClient (w : WorldState) (msp : String) (id : Key) (amt : Int) (fx : TxEffects) :
      AddClient msp (initFx w) id amt = .ok fx → Step w fx.state
  | putTokens (w : WorldState) (msp : String) (id : Key) (amt : Int) (fx : TxEffects) :
      PutTokens msp (initFx w) id amt = .ok fx → Step w fx.state
  | deleteClient (w : WorldState) (id : Key) (fx : TxEffects) :
      DeleteClient (initFx w) id = .ok fx → Step w fx.state
  | contributeResource (w : WorldState) (msp : String) (id : Key) (data : String)
      (fx : TxEffects) :
      ContributeResource msp (initFx w) id data = .ok fx → Step w fx.state
  | consumeResource (w : WorldState) (msp : String) (id : Key) (n : Int) (fx : TxEffects) :
      ConsumeResource msp (initFx w) id n = .ok fx → Step w fx.state

/-- World states reachable from the empty ledger by committed transactions. -/
inductive Reachable : WorldState → Prop where
  | init : Reachable []
  | step {w w' : WorldState} : Reachable w → Step w w' → Reachable w'

/-- Like `Step`, but every amount handed to `AddClient` or `PutTokens` is
non-negative (the amounts the callers of the contract are specified to use). -/
inductive StepNN : WorldState → WorldState → Prop where
  | addClient (w : WorldState) (msp : String) (id : Key) (amt : Int) (fx : TxEffects) :
      0 ≤ amt → AddClient msp (initFx w) id amt = .ok fx → StepNN w fx.state
  | putTokens (w : WorldState) (msp : String) (id : Key) (amt : Int) (fx : TxEffects) :
      0 ≤ amt → PutTokens msp (initFx w) id amt = .ok fx → StepNN w fx.state
  | deleteClient (w : WorldState) (id : Key) (fx : TxEffects) :
      DeleteClient (initFx w) id = .ok fx → StepNN w fx.state
  | contributeResource (w : WorldState) (msp : String) (id : Key) (data : String)
      (fx : TxEffects) :
      ContributeResource msp (initFx w) id data = .ok fx → StepNN w fx.state
  | consumeResource (w : WorldState) (msp : String) (id : Key) (n : Int) (fx : TxEffects) :
      ConsumeResource msp (initFx w) id n = .ok fx → StepNN w fx.state

/-- World states reachable from the empty ledger when callers only ever pass
non-negative amounts to `AddClient` and `PutTokens`. -/
inductive ReachableNN : WorldState → Prop where
  | init : ReachableNN []
  | step {w w' : WorldState} : ReachableNN w → StepNN w w' → ReachableNN w'

/-- The transaction validation codes the client inspects
(`StatusCode.MVCC_READ_CONFLICT` and everything else). -/
inductive StatusCode where
  | mvccReadConflict
  | endorsementPolicyFailure
  | otherCode
deriving DecidableEq, Repr

/-- An error surfaced by a gateway submit/evaluate call: either a
`CommitError` carrying a validation code (the transaction failed validation
and did not update the ledger), or any other failure. -/
inductive GatewayError where
  | commitError (code : StatusCode)
  | otherFailure
deriving DecidableEq, Repr

/-- Embeds `err instanceof CommitError && err.code === StatusCode.MVCC_READ_CONFLICT`. -/
def GatewayError.isMvccReadConflict : GatewayError → Bool
  | .commitError .mvccReadConflict => true
  | _ => false

/-- Embeds `const RETRIES = 2`. -/
def RETRIES : Nat := 2

/-- The loop body of `submitWithRetry`, with the remaining loop iterations as
fuel (top call: `fuel = RETRIES`, `attempt = 0`).  `f k` is the outcome the
ledger gives the k-th execution of the submitted thunk; `lastError` mirrors
the JavaScript `let lastError: unknown | undefined` (`none` = `undefined`,
thrown only if the loop never runs). -/
def submitWithRetryLoop {T : Type} (f : Nat → Except GatewayError T) :
    Nat → Nat → Option GatewayError → Except (Option GatewayError) T
  | 0, _, lastError => .error lastError
  | fuel + 1, attempt, _ =>
    match f attempt with
    | .ok v => .ok v
    | .error e =>
      if e.isMvccReadConflict then submitWithRetryLoop f fuel (attempt + 1) (some e)
      else .error (some e)

/-- Embeds `submitWithRetry(submit)`: run the submission, retrying (up to `RETRIES`
attempts in total) exactly when it fails with an `MVCC_READ_CONFLICT` commit
error; propagate the last error otherwise. -/
def submitWithRetry {T : Type} (f : Nat → Except GatewayError T) :
    Except (Option GatewayError) T :=
  submitWithRetryLoop f RETRIES 0 none

/-- Client `putTokens(newAmount)`: a submit of `PutTokens` wrapped in
`submitWithRetry`. -/
def putTokens {T : Type} (f : Nat → Except GatewayError T) :
    Except (Option GatewayError) T :=
  submitWithRetry f

/-- Client `deleteClient()`: a submit of `DeleteClient` wrapped in
`submitWithRetry`. -/
def deleteClient {T : Type} (f : Nat → Except GatewayError T) :
    Except (Option GatewayError) T :=
  submitWithRetry f

/-- Client `addClient(initAmount)`: a single submit of `AddClient`, not
wrapped in the retry helper. -/
def addClient {T : Type} (f : Nat → Except GatewayError T) : Except GatewayError T :=
  f 0

/-- Client `contributeResource(data)`: a single submit of
`ContributeResource`, not wrapped in the retry helper. -/
def contributeResource {T : Type} (f : Nat → Except GatewayError T) :
    Except GatewayError T :=
  f 0

/-- Client `consumeResource(requiredLength)`: a single submit of
`ConsumeResource`, not wrapped in the retry helper. -/
def consumeResource {T : Type} (f : Nat → Except GatewayError T) :
    Except GatewayError T :=
  f 0

/-- Client `getTokens()`: a single evaluate of `GetTokens`; the outcome of
that one gateway round-trip is returned as is. -/
def getTokens {T : Type} (r : Except GatewayError T) : Except GatewayError T := r

/-- Client `clientExists()`: a single evaluate of `ClientExists`. -/
def clientExists {T : Type} (r : Except GatewayError T) : Except GatewayError T := r

/-- Client `getAllTokens()`: a single evaluate of `GetAllTokens`. -/
def getAllTokens {T : Type} (r : Except GatewayError T) : Except GatewayError T := r

/-- An outcome stream whose first attempt loses an optimistic-concurrency
race (`MVCC_READ_CONFLICT`) and whose second attempt succeeds. -/
def conflictThenOk : Nat → Except GatewayError Int
  | 0 => .error (.commitError .mvccReadConflict)
  | _ + 1 => .ok 7

/-- The representation invariant of the world state: records are in strictly
ascending key order (so in particular each key occurs at most once). -/
def KeySorted (w : WorldState) : Prop :=
  w.Pairwise (fun a b => a.1 < b.1)

/-- All stored balances of a state are non-negative. -/
def NonNegBal (w : WorldState) : Prop := ∀ p ∈ w, 0 ≤ p.2

/-- The balance a transaction's outcome leaves under a key: the lookup in the
committed state on success, the unchanged error on failure. -/
def balanceAfter (r : Except ContractError TxEffects) (id : Key) :
    Except ContractError (Option Int) :=
  r.map (fun fx => getState fx.state id)

/-- The transaction context produced by `AddClient` run by org `"m"` on the
empty ledger for client `"a"` with 5 introductory tokens. -/
def exFxAdd : TxEffects :=
  { state := [("a", 5)], writes := [("a", 5)], deletes := [],
    events := [("AddClient", "5")], endorsements := [("a", "m")] }

/-! ### Basic facts about the state representation and the stub helpers -/

@[simp] theorem initFx_state (w : WorldState) : (initFx w).state = w := rfl

@[simp] theorem stubPutState_state (fx : TxEffects) (k : Key) (v : Int) :
    (stubPutState fx k v).state = putState fx.state k v := rfl

@[simp] theorem stubDeleteState_state (fx : TxEffects) (k : Key) :
    (stubDeleteState fx k).state = deleteState fx.state k := rfl

@[simp] theorem setEvent_state (fx : TxEffects) (n p : String) :
    (setEvent fx n p).state = fx.state := rfl

@[simp] theorem setEndorsingOrgs_state (fx : TxEffects) (k : Key) (m : String) :
    (setEndorsingOrgs fx k m).state = fx.state := rfl

theorem getState_putState_self : ∀ (w : WorldState) (k : Key) (v : Int),
    getState (putState w k v) k = some v
  | [], k, v => by simp [putState, getState]
  | (k', v') :: rest, k, v => by
    by_cases h1 : k = k'
    · simp [putState, h1, getState]
    · by_cases h2 : k < k'
      · simp [putState, h1, h2, getState]
      · simp [putState, h1, h2, getState, Ne.symm h1, getState_putState_self rest k v]

theorem getState_mem : ∀ {w : WorldState} {id : Key} {b : Int},
    getState w id = some b → (id, b) ∈ w := by
  intro w
  induction w with
  | nil => intro id b h; simp [getState] at h
  | cons hd tl ih =>
    intro id b h
    obtain ⟨k', v'⟩ := hd
    by_cases hk : k' = id
    · simp [getState, hk] at h
      simp [hk, h]
    · simp [getState, hk] at h
      exact List.mem_cons_of_mem _ (ih h)

theorem mem_putState : ∀ {w : WorldState} {k : Key} {v : Int} {p : Key × Int},
    p ∈ putState w k v → p = (k, v) ∨ p ∈ w := by
  intro w
  induction w with
  | nil => intro k v p h; simp [putState] at h; simp [h]
  | cons hd tl ih =>
    intro k v p h
    obtain ⟨k', v'⟩ := hd
    by_cases h1 : k = k'
    · simp [putState, h1] at h
      rcases h with h | h
      · exact Or.inl (by simp [h, h1])
      · exact Or.inr (List.mem_cons_of_mem _ h)
    · by_cases h2 : k < k'
      · simp [putState, h1, h2] at h
        rcases h with h | h | h
        · exact Or.inl (by simp [h])
        · exact Or.inr (by simp [h])
        · exact Or.inr (List.mem_cons_of_mem _ h)
      · simp [putState, h1, h2] at h
        rcases h with h | h
        · exact Or.inr (by simp [h])
        · rcases ih h with h | h
          · exact Or.inl h
          · exact Or.inr (List.mem_cons_of_mem _ h)

theorem mem_deleteState : ∀ {w : WorldState} {k : Key} {p : Key × Int},
    p ∈ deleteState w k → p ∈ w := by
  intro w
  induction w with
  | nil => intro k p h; simp [deleteState] at h
  | cons hd tl ih =>
    intro k p h
    obtain ⟨k', v'⟩ := hd
    by_cases h1 : k' = k
    · simp [deleteState, h1] at h
      exact List.mem_cons_of_mem _ (ih h)
    · simp [deleteState, h1] at h
      rcases h with h | h
      · simp [h]
      · exact List.mem_cons_of_mem _ (ih h)

theorem putState_cons_self (k : Key) (v v' : Int) (tl : WorldState) :
    putState ((k, v') :: tl) k v = (k, v) :: tl := by
  unfold putState
  rw [if_pos rfl]

theorem getState_cons_self (k : Key) (v : Int) (tl : WorldState) :
    getState ((k, v) :: tl) k = some v := by
  unfold getState
  rw [if_pos rfl]

/-! ### The key-order representation invariant -/

theorem keySorted_putState : ∀ {w : WorldState} (k : Key) (v : Int),
    KeySorted w → KeySorted (putState w k v) := by
  intro w
  induction w with
  | nil => intro k v _; simp [putState, KeySorted]
  | cons hd tl ih =>
    intro k v hw
    obtain ⟨k', v'⟩ := hd
    rw [KeySorted, List.pairwise_cons] at hw
    obtain ⟨hhd, htl⟩ := hw
    by_cases h1 : k = k'
    · subst h1
      rw [KeySorted, putState_cons_self, List.pairwise_cons]
      exact ⟨fun p hp => hhd p hp, htl⟩
    · by_cases h2 : k < k'
      · rw [KeySorted]
        simp only [putState, if_neg h1, if_pos h2]
        rw [List.pairwise_cons]
        refine ⟨?_, ?_⟩
        · intro p hp
          rcases List.mem_cons.mp hp with h | h
          · simpa [h] using h2
          · exact lt_trans h2 (hhd p h)
        · rw [List.pairwise_cons]
          exact ⟨hhd, htl⟩
      · have h3 : k' < k := by
          rcases lt_trichotomy k k' with h | h | h
          · exact absurd h h2
          · exact absurd h h1
          · exact h
        rw [KeySorted]
        simp only [putState, if_neg h1, if_neg h2]
        rw [List.pairwise_cons]
        refine ⟨?_, ih k v htl⟩
        intro p hp
        rcases mem_putState hp with h | h
        · simpa [h] using h3
        · exact hhd p h

theorem keySorted_deleteState : ∀ {w : WorldState} (k : Key),
    KeySorted w → KeySorted (deleteState w k) := by
  intro w
  induction w with
  | nil => intro k _; simp [deleteState, KeySorted]
  | cons hd tl ih =>
    intro k hw
    obtain ⟨k', v'⟩ := hd
    rw [KeySorted, List.pairwise_cons] at hw
    obtain ⟨hhd, htl⟩ := hw
    by_cases h1 : k' = k
    · simpa [deleteState, h1] using ih k htl
    · rw [KeySorted]
      simp only [deleteState, if_neg h1]
      rw [List.pairwise_cons]
      exact ⟨fun p hp => hhd p (mem_deleteState hp), ih k htl⟩

/-- On a well-formed state, list membership and point lookup agree. -/
theorem mem_iff_getState : ∀ {w : WorldState}, KeySorted w →
    ∀ {id : Key} {b : Int}, ((id, b) ∈ w ↔ getState w id = some b) := by
  intro w
  induction w with
  | nil => intro _ id b; simp [getState]
  | cons hd tl ih =>
    intro hw id b
    obtain ⟨k', v'⟩ := hd
    rw [KeySorted, List.pairwise_cons] at hw
    obtain ⟨hhd, htl⟩ := hw
    by_cases hk : k' = id
    · subst hk
      rw [getState_cons_self]
      constructor
      · intro h
        rcases List.mem_cons.mp h with h | h
        · rw [Prod.mk.injEq] at h
          rw [h.2]
        · exact absurd (hhd (k', b) h) (lt_irrefl k')
      · intro h
        rw [Option.some.injEq] at h
        rw [← h]
        exact List.mem_cons_self _ _
    · simp only [getState, if_neg hk]
      rw [← ih htl]
      constructor
      · intro h
        rcases List.mem_cons.mp h with h | h
        · exact absurd (congrArg Prod.fst h).symm hk
        · exact h
      · exact fun h => List.mem_cons_of_mem _ h

/-! ### Success characterizations of the contract methods -/

theorem PutTokens_ok_iff {msp : String} {fx : TxEffects} {id : Key} {v : Int}
    {fx' : TxEffects} :
    PutTokens msp fx id v = .ok fx' ↔
      ClientExists fx.state id = true ∧
      fx' = setEvent (setEndorsingOrgs (stubPutState fx id v) id msp)
        "PutTokens" (toString v) := by
  unfold PutTokens
  by_cases hex : ClientExists fx.state id = true
  · rw [if_pos hex]
    simp only [Except.ok.injEq, hex, true_and]
    exact eq_comm
  · rw [if_neg hex]
    simp [hex]

theorem AddClient_ok_iff {msp : String} {fx : TxEffects} {id : Key} {amt : Int}
    {fx' : TxEffects} :
    AddClient msp fx id amt = .ok fx' ↔
      ClientExists fx.state id = false ∧
      fx' = setEvent (setEndorsingOrgs (stubPutState fx id amt) id msp)
        "AddClient" (toString amt) := by
  unfold AddClient
  by_cases hex : ClientExists fx.state id = true
  · rw [if_pos hex]
    simp [hex]
  · rw [if_neg hex]
    simp only [Except.ok.injEq, Bool.not_eq_true] at hex ⊢
    simp only [hex, true_and]
    exact eq_comm

theorem DeleteClient_ok_iff {fx : TxEffects} {id : Key} {fx' : TxEffects} :
    DeleteClient fx id = .ok fx' ↔
      ∃ v, getState fx.state id = some v ∧
        fx' = setEvent (stubDeleteState fx id) "DeleteClient" (toString v) := by
  unfold DeleteClient
  rcases h : getState fx.state id with _ | v
  · simp [h]
  · simp [h, eq_comm]

theorem ContributeResource_ok_iff {msp : String} {fx : TxEffects} {id : Key}
    {data : String} {fx' : TxEffects} :
    ContributeResource msp fx id data = .ok fx' ↔
      ∃ b, getState fx.state id = some b ∧
        fx' = setEvent (setEvent (setEndorsingOrgs
                (stubPutState fx id (b + evaluateObfuscation data)) id msp)
              "PutTokens" (toString (b + evaluateObfuscation data)))
            "ContributeResource" (toString (b + evaluateObfuscation data)) := by
  unfold ContributeResource GetTokens PutTokens
  rcases h : getState fx.state id with _ | b
  · simp [ClientExists, h]
  · simp [ClientExists, h, eq_comm]

theorem ConsumeResource_ok_iff {msp : String} {fx : TxEffects} {id : Key}
    {n : Int} {fx' : TxEffects} :
    ConsumeResource msp fx id n = .ok fx' ↔
      ∃ b, getState fx.state id = some b ∧ 0 ≤ b - evaluateDeduction n ∧
        fx' = setEvent (setEvent (setEndorsingOrgs
                (stubPutState fx id (b - evaluateDeduction n)) id msp)
              "PutTokens" (toString (b - evaluateDeduction n)))
            "ConsumeResource" (toString (b - evaluateDeduction n)) := by
  unfold ConsumeResource GetTokens PutTokens
  rcases h : getState fx.state id with _ | b
  · simp [ClientExists, h]
  · by_cases hneg : b - evaluateDeduction n < 0
    · constructor
      · intro hok
        simp [ClientExists, h, hneg] at hok
      · rintro ⟨b1, hb1, hle, _⟩
        rw [Option.some.injEq] at hb1
        subst hb1
        exact absurd hle (by omega)
    · simp [ClientExists, h, hneg, eq_comm]
      intro _
      omega

/-! ### Invariant preservation along committed transactions -/

theorem Step_keySorted {w w' : WorldState} (hs : Step w w') (hw : KeySorted w) :
    KeySorted w' := by
  cases hs with
  | addClient msp id amt fx h =>
    obtain ⟨-, rfl⟩ := AddClient_ok_iff.mp h
    simpa using keySorted_putState id amt hw
  | putTokens msp id amt fx h =>
    obtain ⟨-, rfl⟩ := PutTokens_ok_iff.mp h
    simpa using keySorted_putState id amt hw
  | deleteClient id fx h =>
    obtain ⟨v, -, rfl⟩ := DeleteClient_ok_iff.mp h
    simpa using keySorted_deleteState id hw
  | contributeResource msp id data fx h =>
    obtain ⟨b, -, rfl⟩ := ContributeResource_ok_iff.mp h
    simpa using keySorted_putState id (b + evaluateObfuscation data) hw
  | consumeResource msp id n fx h =>
    obtain ⟨b, -, -, rfl⟩ := ConsumeResource_ok_iff.mp h
    simpa using keySorted_putState id (b - evaluateDeduction n) hw

theorem Reachable_keySorted {w : WorldState} (h : Reachable w) : KeySorted w := by
  induction h with
  | init => exact List.Pairwise.nil
  | step _ hs ih => exact Step_keySorted hs ih

theorem nonNegBal_putState {w : WorldState} {k : Key} {v : Int}
    (hw : NonNegBal w) (hv : 0 ≤ v) : NonNegBal (putState w k v) := by
  intro p hp
  rcases mem_putState hp with h | h
  · simpa [h] using hv
  · exact hw p h

theorem nonNegBal_deleteState {w : WorldState} {k : Key}
    (hw : NonNegBal w) : NonNegBal (deleteState w k) :=
  fun p hp => hw p (mem_deleteState hp)

theorem getState_nonneg {w : WorldState} {id : Key} {b : Int}
    (hw : NonNegBal w) (h : getState w id = some b) : 0 ≤ b :=
  hw (id, b) (getState_mem h)

theorem ceilDiv_nonneg {n : Int} (h : 0 ≤ n) : 0 ≤ ceilDiv n 10 := by
  unfold ceilDiv
  omega

theorem evaluateObfuscation_nonneg (data : String) : 0 ≤ evaluateObfuscation data :=
  ceilDiv_nonneg (by exact_mod_cast Int.natCast_nonneg data.length)

theorem StepNN_nonNegBal {w w' : WorldState} (hs : StepNN w w') (hw : NonNegBal w) :
    NonNegBal w' := by
  cases hs with
  | addClient msp id amt fx hamt h =>
    obtain ⟨-, rfl⟩ := AddClient_ok_iff.mp h
    simp only [setEvent_state, setEndorsingOrgs_state, stubPutState_state, initFx_state]
    exact nonNegBal_putState hw hamt
  | putTokens msp id amt fx hamt h =>
    obtain ⟨-, rfl⟩ := PutTokens_ok_iff.mp h
    simp only [setEvent_state, setEndorsingOrgs_state, stubPutState_state, initFx_state]
    exact nonNegBal_putState hw hamt
  | deleteClient id fx h =>
    obtain ⟨v, -, rfl⟩ := DeleteClient_ok_iff.mp h
    simp only [setEvent_state, stubDeleteState_state, initFx_state]
    exact nonNegBal_deleteState hw
  | contributeResource msp id data fx h =>
    obtain ⟨b, hb, rfl⟩ := ContributeResource_ok_iff.mp h
    simp only [setEvent_state, setEndorsingOrgs_state, stubPutState_state, initFx_state]
    have h1 : 0 ≤ b := getState_nonneg hw (by simpa using hb)
    have h2 := evaluateObfuscation_nonneg data
    exact nonNegBal_putState hw (by omega)
  | consumeResource msp id n fx h =>
    obtain ⟨b, hb, hle, rfl⟩ := ConsumeResource_ok_iff.mp h
    simp only [setEvent_state, setEndorsingOrgs_state, stubPutState_state, initFx_state]
    exact nonNegBal_putState hw hle

theorem ReachableNN_nonNegBal {w : WorldState} (h : ReachableNN w) : NonNegBal w := by
  induction h with
  | init => intro p hp; simp at hp
  | step _ hs ih => exact StepNN_nonNegBal hs ih

/-! ### Unrolling the retry loop -/

theorem submitWithRetry_unfold {T : Type} (f : Nat → Except GatewayError T) :
    submitWithRetry f =
      match f 0 with
      | .ok v => .ok v
      | .error e =>
        if e.isMvccReadConflict then submitWithRetryLoop f 1 1 (some e)
        else .error (some e) := rfl

theorem submitWithRetryLoop_one {T : Type} (f : Nat → Except GatewayError T)
    (e : GatewayError) :
    submitWithRetryLoop f 1 1 (some e) =
      match f 1 with
      | .ok v => .ok v
      | .error e1 =>
        if e1.isMvccReadConflict then submitWithRetryLoop f 0 2 (some e1)
        else .error (some e1) := rfl

theorem submitWithRetryLoop_zero {T : Type} (f : Nat → Except GatewayError T)
    (attempt : Nat) (lastError : Option GatewayError) :
    submitWithRetryLoop f 0 attempt lastError = .error lastError := rfl

/-- The full behavior of `submitWithRetry` as a case equation on the first
two attempt outcomes. -/
theorem submitWithRetry_eq (T : Type) (f : Nat → Except GatewayError T) :
    submitWithRetry f =
      match f 0 with
      | .ok v => .ok v
      | .error e =>
        if e.isMvccReadConflict then
          match f 1 with
          | .ok v => .ok v
          | .error e1 => .error (some e1)
        else .error (some e) := by
  rcases h0 : f 0 with e0 | v0
  · by_cases hm : e0.isMvccReadConflict
    · rcases h1 : f 1 with e1 | v1
      · by_cases hm1 : e1.isMvccReadConflict
        · simp [submitWithRetry_unfold, submitWithRetryLoop_one,
            submitWithRetryLoop_zero, h0, h1, hm, hm1]
        · simp [submitWithRetry_unfold, submitWithRetryLoop_one, h0, h1, hm, hm1]
      · simp [submitWithRetry_unfold, submitWithRetryLoop_one, h0, h1, hm]
    · simp [submitWithRetry_unfold, h0, hm]
  · simp [submitWithRetry_unfold, h0]

/-! ### Claim C4 -/

/-- C4: The retry protocol of `submitWithRetry`, as one equation: the
result is a function of the first two attempt outcomes only (so at most
`RETRIES = 2` attempts are ever consulted); a first attempt that succeeds
returns immediately; a first attempt failing with the specific
`MVCC_READ_CONFLICT` commit error triggers exactly one retry, while any
other failure stops immediately; and when no attempt succeeds the last
error encountered is the one propagated (unchanged, up to the wrapping
that mirrors the JavaScript `unknown | undefined` variable). -/
theorem c4_retry_protocol (T : Type) (f : Nat → Except GatewayError T) :
    submitWithRetry f =
      match f 0 with
      | .ok v => .ok v
      | .error e =>
        if e.isMvccReadConflict then
          match f 1 with
          | .ok v => .ok v
          | .error e1 => .error (some e1)
        else .error (some e) :=
  submitWithRetry_eq T f

/-! ### Claim C2 -/

/-- C2 counterexample: The claim says the retry wrapper extends
"transitively to the contribute and consume operations that call them
[putTokens/deleteClient]".  It does not: in the client class,
`contributeResource` and `consumeResource` submit directly, bypassing
`submitWithRetry`.  On the concrete outcome stream `conflictThenOk` (first
attempt loses an MVCC race, second attempt succeeds) `putTokens` masks the
conflict and succeeds, while `consumeResource` and `contributeResource`
surface the conflict of their single attempt. -/
theorem c2_counterexample :
    putTokens conflictThenOk = .ok 7 ∧
    consumeResource conflictThenOk = .error (.commitError .mvccReadConflict) ∧
    contributeResource conflictThenOk = .error (.commitError .mvccReadConflict) :=
  ⟨rfl, rfl, rfl⟩

/-- C2 amended: The retry wrapper is applied to the submissions of
`putTokens` and `deleteClient` only; `addClient`, `contributeResource` and
`consumeResource` submit once without the wrapper (client-side they do not
call `putTokens`), and the evaluate-only reads `getTokens`, `clientExists`
and `getAllTokens` bypass it entirely, returning their single evaluate
outcome unchanged.  Behaviorally: on an outcome stream whose first attempt
is an `MVCC_READ_CONFLICT` commit error and whose second succeeds, the two
wrapped operations succeed while every unwrapped submission surfaces the
conflict. -/
theorem c2_retry_scope (T : Type) (f : Nat → Except GatewayError T) (v : T)
    (h0 : f 0 = .error (.commitError .mvccReadConflict)) (h1 : f 1 = .ok v) :
    putTokens f = .ok v ∧
    deleteClient f = .ok v ∧
    addClient f = .error (.commitError .mvccReadConflict) ∧
    contributeResource f = .error (.commitError .mvccReadConflict) ∧
    consumeResource f = .error (.commitError .mvccReadConflict) ∧
    (∀ r : Except GatewayError T, getTokens r = r ∧ clientExists r = r ∧
      getAllTokens r = r) := by
  have hret : submitWithRetry f = .ok v := by
    rw [submitWithRetry_eq, h0]
    simp [GatewayError.isMvccReadConflict, h1]
  exact ⟨hret, hret, h0, h0, h0, fun r => ⟨rfl, rfl, rfl⟩⟩

/-- Witness for C2: the amended theorem applied to the concrete stream
`conflictThenOk`. -/
theorem c2_retry_scope_witness :
    deleteClient conflictThenOk = .ok 7 ∧
    addClient conflictThenOk = .error (.commitError .mvccReadConflict) := by
  have h := c2_retry_scope Int conflictThenOk 7 rfl rfl
  exact ⟨h.2.1, h.2.2.1⟩

/-! ### Claim C5 -/

/-- C5: For an existing account with balance `b` and any integer `n`,
`ConsumeResource(id, n)` succeeds and sets the balance to
`b - ceil(n/10)` exactly when that result is non-negative; otherwise it
throws the insufficient-tokens error (so the transaction commits nothing
and the balance is unchanged). -/
theorem c5_consume_semantics (msp : String) (w : WorldState) (id : Key) (n b : Int)
    (hb : getState w id = some b) :
    (0 ≤ b - evaluateDeduction n →
      balanceAfter (ConsumeResource msp (initFx w) id n) id =
        .ok (some (b - evaluateDeduction n))) ∧
    (b - evaluateDeduction n < 0 →
      ConsumeResource msp (initFx w) id n = .error (.insufficientTokens id)) := by
  constructor
  · intro hle
    have hok := (@ConsumeResource_ok_iff msp (initFx w) id n _).mpr ⟨b, hb, hle, rfl⟩
    rw [hok]
    simp [balanceAfter, Except.map, getState_putState_self]
  · intro hlt
    simp [ConsumeResource, ClientExists, GetTokens, hb, hlt]

/-- Witness for C5 at the spec's example: balance 5, `n = 41` succeeds
leaving balance 0, `n = 51` fails with the insufficient-tokens error. -/
theorem c5_consume_witness :
    balanceAfter (ConsumeResource "m" (initFx [("a", 5)]) "a" 41) "a" = .ok (some 0) ∧
    ConsumeResource "m" (initFx [("a", 5)]) "a" 51 = .error (.insufficientTokens "a") := by
  have h41 := (c5_consume_semantics "m" [("a", 5)] "a" 41 5 rfl).1 (by decide)
  have h51 := (c5_consume_semantics "m" [("a", 5)] "a" 51 5 rfl).2 (by decide)
  rw [show (5 : Int) - evaluateDeduction 41 = 0 from by decide] at h41
  exact ⟨h41, h51⟩

/-! ### Claim C6 -/

/-- C6: For an existing account with balance `b` and any string `data`,
`ContributeResource(id, data)` succeeds and sets the balance to
`b + ceil(len(data)/10)`. -/
theorem c6_contribute_semantics (msp : String) (w : WorldState) (id : Key)
    (data : String) (b : Int) (hb : getState w id = some b) :
    balanceAfter (ContributeResource msp (initFx w) id data) id =
      .ok (some (b + evaluateObfuscation data)) := by
  have hok := (@ContributeResource_ok_iff msp (initFx w) id data _).mpr ⟨b, hb, rfl⟩
  rw [hok]
  simp [balanceAfter, Except.map, getState_putState_self]

/-- Witness for C6 at the spec's example: data of length 23 increases the
balance by exactly 3 (here from 5 to 8). -/
theorem c6_contribute_witness :
    balanceAfter (ContributeResource "m" (initFx [("a", 5)]) "a"
      "abcdefghijklmnopqrstuvw") "a" = .ok (some 8) := by
  have h := c6_contribute_semantics "m" [("a", 5)] "a" "abcdefghijklmnopqrstuvw" 5 rfl
  rw [show (5 : Int) + evaluateObfuscation "abcdefghijklmnopqrstuvw" = 8 from by decide] at h
  exact h

/-! ### Claim C8 -/

/-- C8: After a successful `AddClient(id, v1)`, a second
`AddClient(id, v2)` fails with the already-exists error (so it commits
nothing), and the stored balance remains the `v1` established by the first
call. -/
theorem c8_addClient_not_idempotent (msp1 msp2 : String) (w : WorldState) (id : Key)
    (v1 v2 : Int) (fx : TxEffects) (h : AddClient msp1 (initFx w) id v1 = .ok fx) :
    AddClient msp2 (initFx fx.state) id v2 = .error (.alreadyExists id) ∧
    getState fx.state id = some v1 := by
  obtain ⟨-, rfl⟩ := AddClient_ok_iff.mp h
  have hself : getState (putState w id v1) id = some v1 := getState_putState_self w id v1
  constructor
  · simp [AddClient, ClientExists, hself]
  · simpa using hself

/-- Witness for C8 on the empty ledger: after `AddClient("a", 5)`, adding
`"a"` again fails and the balance is still 5. -/
theorem c8_addClient_witness :
    AddClient "n" (initFx exFxAdd.state) "a" 7 = .error (.alreadyExists "a") ∧
    getState exFxAdd.state "a" = some 5 :=
  c8_addClient_not_idempotent "m" "n" [] "a" 5 7 exFxAdd rfl

/-! ### Claim C9 -/

/-- C9: For an existing account and any non-negative integer `v`,
`PutTokens(id, v)` followed immediately by `GetTokens(id)` on the committed
state returns `v`. -/
theorem c9_put_get_roundtrip (msp : String) (w : WorldState) (id : Key) (v : Int)
    (hv : 0 ≤ v) (hex : ClientExists w id = true) :
    (PutTokens msp (initFx w) id v).map (fun fx => GetTokens fx.state id) =
      .ok (.ok v) := by
  have hok := (@PutTokens_ok_iff msp (initFx w) id v _).mpr ⟨hex, rfl⟩
  rw [hok]
  simp [Except.map, GetTokens, getState_putState_self]

/-- Witness for C9: put 3 tokens for the existing account `"a"`, read 3 back. -/
theorem c9_put_get_witness :
    (PutTokens "m" (initFx [("a", 5)]) "a" 3).map (fun fx => GetTokens fx.state "a") =
      .ok (.ok 3) :=
  c9_put_get_roundtrip "m" [("a", 5)] "a" 3 (by decide) rfl

/-! ### Claim C10 -/

/-- C10: Contributing the empty string to an existing account succeeds
and leaves the balance unchanged (the cost function maps length 0 to 0),
yet the transaction still performs a state write of the (unchanged) value,
an endorsement-policy attachment for the key, and event emission (the
`PutTokens` and `ContributeResource` `setEvent` calls). -/
theorem c10_contribute_empty_identity (msp : String) (w : WorldState) (id : Key)
    (b : Int) (hb : getState w id = some b) :
    evaluateObfuscation "" = 0 ∧
    balanceAfter (ContributeResource msp (initFx w) id "") id = .ok (some b) ∧
    (ContributeResource msp (initFx w) id "").map
        (fun fx => (fx.writes, fx.endorsements, fx.events)) =
      .ok ([(id, b)], [(id, msp)],
        [("PutTokens", toString b), ("ContributeResource", toString b)]) := by
  have hzero : evaluateObfuscation "" = 0 := rfl
  have hok := (@ContributeResource_ok_iff msp (initFx w) id "" _).mpr ⟨b, hb, rfl⟩
  rw [hzero, add_zero] at hok
  refine ⟨hzero, ?_, ?_⟩
  · rw [hok]
    simp [balanceAfter, Except.map, getState_putState_self]
  · rw [hok]
    simp [Except.map, stubPutState, setEvent, setEndorsingOrgs, initFx]

/-- Witness for C10: contributing `""` to `"a"` with balance 5 leaves the
balance 5 while still writing, endorsing and emitting events. -/
theorem c10_contribute_empty_witness :
    balanceAfter (ContributeResource "m" (initFx [("a", 5)]) "a" "") "a" =
      .ok (some 5) ∧
    (ContributeResource "m" (initFx [("a", 5)]) "a" "").map
        (fun fx => (fx.writes, fx.endorsements, fx.events)) =
      .ok ([("a", 5)], [("a", "m")],
        [("PutTokens", "5"), ("ContributeResource", "5")]) := by
  have h := c10_contribute_empty_identity "m" [("a", 5)] "a" 5 rfl
  exact ⟨h.2.1, h.2.2⟩

/-! ### Claim C1 -/

/-- C1 counterexample: The claim as stated fails: `AddClient` (like
`PutTokens`) accepts any number, so adding a client with initial amount -1
commits a state whose stored balance is negative. -/
theorem c1_counterexample :
    Reachable [("a", -1)] ∧ getState [("a", -1)] "a" = some (-1) ∧ ((-1 : Int) < 0) :=
  ⟨Reachable.step Reachable.init (Step.addClient [] "m" "a" (-1) _ rfl), rfl, by decide⟩

/-- C1 amended: When callers only pass non-negative amounts to
`AddClient` and `PutTokens` (the spec's data model restricts balances to
non-negative token counts), every reachable state stores only non-negative
balances; and a `ConsumeResource` whose cost would drive the balance below
zero throws the insufficient-tokens error, so its transaction commits
nothing and the balance is left unchanged. -/
theorem c1_balance_invariant :
    (∀ w, ReachableNN w → ∀ p ∈ w, 0 ≤ p.2) ∧
    (∀ (msp : String) (w : WorldState) (id : Key) (n b : Int),
      getState w id = some b → b - evaluateDeduction n < 0 →
      ConsumeResource msp (initFx w) id n = .error (.insufficientTokens id)) := by
  constructor
  · exact fun w h => ReachableNN_nonNegBal h
  · intro msp w id n b hb hlt
    simp [ConsumeResource, ClientExists, GetTokens, hb, hlt]

/-- Witness for C1: the balance 5 readable in the reachable state
`[("a", 5)]` is non-negative, and consuming at cost 6 from it is rejected. -/
theorem c1_balance_invariant_witness :
    (0 : Int) ≤ 5 ∧
    ConsumeResource "m" (initFx [("a", 5)]) "a" 51 = .error (.insufficientTokens "a") := by
  have h := c1_balance_invariant
  refine ⟨h.1 [("a", 5)] ?_ ("a", 5) (by simp),
    h.2 "m" [("a", 5)] "a" 51 5 rfl (by decide)⟩
  exact ReachableNN.step ReachableNN.init (StepNN.addClient [] "m" "a" 5 _ (by decide) rfl)

/-! ### Claim C3 -/

/-- C3 counterexample: `DeleteClient` performs no endorsement-policy
attachment: on a concrete ledger it succeeds with an empty
`setStateValidationParameter` trace, refuting "every mutating operation
(... DeleteClient ...) re-attaches the endorsement policy". -/
theorem c3_counterexample :
    DeleteClient (initFx [("a", 5)]) "a" =
      .ok { state := [], writes := [], deletes := ["a"],
            events := [("DeleteClient", "5")], endorsements := [] } := rfl

/-- C3 amended: Each of `AddClient`, `PutTokens`, `ContributeResource`
and `ConsumeResource`, when it succeeds, attaches — within the same
transaction — the endorsement policy for the affected key to the invoking
identity's organization; `DeleteClient` is the exception: it attaches no
policy. -/
theorem c3_endorsement_policy (msp : String) (w : WorldState) (id : Key)
    (amt : Int) (data : String) (n : Int) :
    (∀ fx, AddClient msp (initFx w) id amt = .ok fx →
      fx.endorsements = [(id, msp)]) ∧
    (∀ fx, PutTokens msp (initFx w) id amt = .ok fx →
      fx.endorsements = [(id, msp)]) ∧
    (∀ fx, ContributeResource msp (initFx w) id data = .ok fx →
      fx.endorsements = [(id, msp)]) ∧
    (∀ fx, ConsumeResource msp (initFx w) id n = .ok fx →
      fx.endorsements = [(id, msp)]) ∧
    (∀ fx, DeleteClient (initFx w) id = .ok fx → fx.endorsements = []) := by
  refine ⟨?_, ?_, ?_, ?_, ?_⟩
  · intro fx h
    obtain ⟨-, rfl⟩ := AddClient_ok_iff.mp h
    simp [setEvent, setEndorsingOrgs, stubPutState, initFx]
  · intro fx h
    obtain ⟨-, rfl⟩ := PutTokens_ok_iff.mp h
    simp [setEvent, setEndorsingOrgs, stubPutState, initFx]
  · intro fx h
    obtain ⟨b, -, rfl⟩ := ContributeResource_ok_iff.mp h
    simp [setEvent, setEndorsingOrgs, stubPutState, initFx]
  · intro fx h
    obtain ⟨b, -, -, rfl⟩ := ConsumeResource_ok_iff.mp h
    simp [setEvent, setEndorsingOrgs, stubPutState, initFx]
  · intro fx h
    obtain ⟨v, -, rfl⟩ := DeleteClient_ok_iff.mp h
    simp [setEvent, stubDeleteState, initFx]

/-- Witness for C3: the successful `AddClient` that produced `exFxAdd`
attached the policy for key `"a"` to the submitting org `"m"`. -/
theorem c3_endorsement_witness : exFxAdd.endorsements = [("a", "m")] :=
  (c3_endorsement_policy "m" [] "a" 5 "" 0).1 exFxAdd rfl

/-! ### Claim C7 -/

/-- Lemma: `GetAllTokens` returns exactly the stored record list. -/
theorem GetAllTokens_eq (w : WorldState) : GetAllTokens w = w := by
  unfold GetAllTokens getStateByRange
  induction w with
  | nil => rfl
  | cons hd tl ih => simp [ih]

/-- C7: In every reachable state, `GetAllTokens` lists the present
accounts in strictly ascending key order (hence each present account
appears exactly once), and an `(id, balance)` pair appears in the output
precisely when that balance is currently stored under that key — so there
are no entries for deleted or never-created accounts.  The function is
total, so it never fails. -/
theorem c7_getAllTokens_complete (w : WorldState) (h : Reachable w) :
    (GetAllTokens w).Pairwise (fun a b => a.1 < b.1) ∧
    (∀ (id : Key) (b : Int), (id, b) ∈ GetAllTokens w ↔ getState w id = some b) := by
  have hs : KeySorted w := Reachable_keySorted h
  rw [GetAllTokens_eq]
  exact ⟨hs, fun id b => mem_iff_getState hs⟩

/-- Witness for C7 on the reachable one-account state `[("a", 5)]`. -/
theorem c7_getAllTokens_witness :
    (GetAllTokens [("a", 5)]).Pairwise (fun a b => a.1 < b.1) ∧
    (("a", 5) ∈ GetAllTokens [("a", 5)] ↔ getState [("a", 5)] "a" = some 5) := by
  have hr : Reachable [("a", 5)] :=
    Reachable.step Reachable.init (Step.addClient [] "m" "a" 5 _ rfl)
  have h := c7_getAllTokens_complete [("a", 5)] hr
  exact ⟨h.1, h.2 "a" 5⟩
